import Mathlib

/-!
Verification development for the STT_shinai speech-to-text backend.

The Python sources are shallowly embedded: paths are lists of characters,
audio buffers are lists of rationals, the filesystem of temporary files is a
list of paths, and the fallible external capabilities (ffmpeg, the Whisper
model constructor, the inference call) are modelled by explicit outcome
parameters.  Each definition carries a comment pointing at the source lines
it translates.
-/

/- ### Path handling

`os.path.splitext` (posixpath): the extension of the final path component is
everything from its last dot onward, unless every character of the component
before that dot is itself a dot (hidden files such as `.mp4` have no
extension). -/

/-- Final path component: the characters after the last `/`
(model of `posixpath` basename handling used by `os.path.splitext`). -/
def basenameL (p : List Char) : List Char :=
  (p.reverse.takeWhile (fun c => c != '/')).reverse

/-- Extension of a basename, following `os.path.splitext`: the part from the
last dot onward, provided some earlier character of the basename is not a dot;
otherwise the empty extension. -/
def extOfBase (b : List Char) : List Char :=
  if (b.reverse.takeWhile (fun c => c != '.')).length = b.reverse.length then []
  else if (b.take
      (b.length - (b.reverse.takeWhile (fun c => c != '.')).length - 1)).any
      (fun c => c != '.') then
    '.' :: (b.reverse.takeWhile (fun c => c != '.')).reverse
  else []

/-- Extension of a path (`os.path.splitext(file_path)[1]`). -/
def splitextExt (p : List Char) : List Char :=
  extOfBase (basenameL p)

/- ### Classification by extension

`src/backend/core/utils.py` lines 18, 153-178 and
`src/backend/app.py` lines 160-167. -/

/-- `SUPPORTED_VIDEO_FORMATS` of `src/backend/core/utils.py` line 18. -/
def SUPPORTED_VIDEO_FORMATS : List (List Char) :=
  [".mp4".toList, ".mkv".toList, ".avi".toList, ".mov".toList,
   ".wmv".toList, ".flv".toList, ".webm".toList]

/-- Audio extension list inlined in `utils.is_audio_file` (line 178). -/
def AUDIO_FORMATS : List (List Char) :=
  [".wav".toList, ".mp3".toList, ".flac".toList, ".ogg".toList, ".m4a".toList]

/-- Video extension list inlined in `SpeechToText.is_video_file`
(`src/backend/app.py` line 165); it has no `.webm` entry. -/
def APP_VIDEO_FORMATS : List (List Char) :=
  [".mp4".toList, ".avi".toList, ".mov".toList, ".mkv".toList,
   ".flv".toList, ".wmv".toList]

/-- `utils.is_video_file` (lines 153-164): lower-cased splitext extension
tested against `SUPPORTED_VIDEO_FORMATS`. -/
def is_video_fileL (p : List Char) : Bool :=
  SUPPORTED_VIDEO_FORMATS.contains ((splitextExt p).map Char.toLower)

/-- `utils.is_audio_file` (lines 167-178). -/
def is_audio_fileL (p : List Char) : Bool :=
  AUDIO_FORMATS.contains ((splitextExt p).map Char.toLower)

/-- `SpeechToText.is_video_file` (`src/backend/app.py` lines 150-167). -/
def app_is_video_fileL (p : List Char) : Bool :=
  APP_VIDEO_FORMATS.contains ((splitextExt p).map Char.toLower)

/-- The video-extension set exactly as the specification enumerates it. -/
def specVideoFormats : List (List Char) :=
  [".mp4".toList, ".avi".toList, ".mov".toList, ".mkv".toList,
   ".flv".toList, ".wmv".toList, ".webm".toList]

/-- The audio-extension set exactly as the specification enumerates it. -/
def specAudioFormats : List (List Char) :=
  [".wav".toList, ".mp3".toList, ".flac".toList, ".ogg".toList, ".m4a".toList]

/- ### takeWhile helper lemmas -/

theorem takeWhile_of_all {p : Char → Bool} {l : List Char}
    (h : ∀ c ∈ l, p c = true) : l.takeWhile p = l := by
  induction l with
  | nil => rfl
  | cons a t ih =>
    rw [List.takeWhile_cons_of_pos (h a (List.mem_cons_self a t))]
    rw [ih (fun c hc => h c (List.mem_cons_of_mem a hc))]

theorem takeWhile_append_stop {p : Char → Bool} {xs ys : List Char} {y : Char}
    (hxs : ∀ c ∈ xs, p c = true) (hy : p y = false) :
    (xs ++ y :: ys).takeWhile p = xs := by
  induction xs with
  | nil => simp [List.takeWhile_cons, hy]
  | cons a t ih =>
    rw [List.cons_append,
      List.takeWhile_cons_of_pos (hxs a (List.mem_cons_self a t))]
    rw [ih (fun c hc => hxs c (List.mem_cons_of_mem a hc))]

/- ### The splitext computation on a component with a proper extension -/

theorem extOfBase_append {base ext : List Char}
    (hbne : base ≠ []) (hbdot : '.' ∉ base) (hedot : '.' ∉ ext) :
    extOfBase (base ++ '.' :: ext) = '.' :: ext := by
  have hrev : (base ++ '.' :: ext).reverse = ext.reverse ++ '.' :: base.reverse := by
    simp
  have hall : ∀ c ∈ ext.reverse, (fun c => c != '.') c = true := by
    intro c hc
    simp only [bne_iff_ne, ne_eq, decide_eq_true_eq]
    intro h
    exact hedot (h ▸ List.mem_reverse.mp hc)
  have htw : (base ++ '.' :: ext).reverse.takeWhile (fun c => c != '.') =
      ext.reverse := by
    rw [hrev]
    exact takeWhile_append_stop hall (by simp)
  have hlen : (base ++ '.' :: ext).reverse.length = base.length + 1 + ext.length := by
    simp; omega
  unfold extOfBase
  rw [htw]
  have hne : ext.reverse.length ≠ (base ++ '.' :: ext).reverse.length := by
    rw [hlen, List.length_reverse]; omega
  rw [if_neg hne]
  have htake : (base ++ '.' :: ext).take
      ((base ++ '.' :: ext).length - ext.reverse.length - 1) = base := by
    have : (base ++ '.' :: ext).length - ext.reverse.length - 1 = base.length := by
      simp; omega
    rw [this]
    exact List.take_left base ('.' :: ext)
  rw [htake]
  have hany : base.any (fun c => c != '.') = true := by
    rcases base with _ | ⟨a, t⟩
    · exact absurd rfl hbne
    · simp only [List.any_cons, Bool.or_eq_true, bne_iff_ne, ne_eq, decide_eq_true_eq]
      left
      intro h
      exact hbdot (h ▸ List.mem_cons_self a t)
  rw [if_pos hany, List.reverse_reverse]

theorem splitextExt_of_basename {p base ext : List Char}
    (hb : basenameL p = base ++ '.' :: ext)
    (hbne : base ≠ []) (hbdot : '.' ∉ base) (hedot : '.' ∉ ext) :
    splitextExt p = '.' :: ext := by
  unfold splitextExt
  rw [hb]
  exact extOfBase_append hbne hbdot hedot

theorem map_toLower_splitext {p base ext : List Char}
    (hb : basenameL p = base ++ '.' :: ext)
    (hbne : base ≠ []) (hbdot : '.' ∉ base) (hedot : '.' ∉ ext) :
    (splitextExt p).map Char.toLower = '.' :: ext.map Char.toLower := by
  have hdot : '.'.toLower = '.' := by decide
  rw [splitextExt_of_basename hb hbne hbdot hedot, List.map_cons, hdot]

theorem mem_app_video_iff (x : List Char) :
    x ∈ APP_VIDEO_FORMATS ↔ x ∈ specVideoFormats ∧ x ≠ ".webm".toList := by
  simp only [APP_VIDEO_FORMATS, specVideoFormats, List.mem_cons,
    List.not_mem_nil, or_false]
  constructor
  · rintro (rfl | rfl | rfl | rfl | rfl | rfl) <;> exact ⟨by decide, by decide⟩
  · rintro ⟨(rfl | rfl | rfl | rfl | rfl | rfl | rfl), hw⟩ <;>
      first
        | decide
        | exact absurd rfl hw

theorem video_formats_perm : SUPPORTED_VIDEO_FORMATS.Perm specVideoFormats := by
  decide

/-- C5 (amended). For every path whose final component splits into a nonempty
dot-free stem and a dot-free extension, `utils.is_video_file` holds exactly
when the lower-cased extension is in the specification's seven-element video
set, `utils.is_audio_file` exactly when it is in the five-element audio set
(any other extension classifies as neither), while `SpeechToText.is_video_file`
in `app.py` recognises the video set **without `.webm`**. -/
theorem C5_classification (p base ext : List Char)
    (hb : basenameL p = base ++ '.' :: ext)
    (hbne : base ≠ []) (hbdot : '.' ∉ base) (hedot : '.' ∉ ext) :
    (is_video_fileL p = true ↔ ('.' :: ext.map Char.toLower) ∈ specVideoFormats) ∧
    (is_audio_fileL p = true ↔ ('.' :: ext.map Char.toLower) ∈ specAudioFormats) ∧
    (app_is_video_fileL p = true ↔
      (('.' :: ext.map Char.toLower) ∈ specVideoFormats ∧
        ('.' :: ext.map Char.toLower) ≠ ".webm".toList)) := by
  have hmap := map_toLower_splitext hb hbne hbdot hedot
  refine ⟨?_, ?_, ?_⟩
  · rw [is_video_fileL, hmap]
    simp only [List.contains]
    rw [List.elem_iff]
    exact video_formats_perm.mem_iff
  · rw [is_audio_fileL, hmap]
    simp only [List.contains]
    rw [List.elem_iff]
    rfl
  · rw [app_is_video_fileL, hmap]
    simp only [List.contains]
    rw [List.elem_iff]
    exact mem_app_video_iff _

/-- C5 counterexample: a `.webm` path is a supported video for
`utils.is_video_file` but `SpeechToText.is_video_file` in `app.py` rejects it,
so the claim's uniform classification fails on the `app.py` classifier. -/
theorem C5_counterexample :
    app_is_video_fileL ("/videos/clip.webm".toList) = false ∧
    is_video_fileL ("/videos/clip.webm".toList) = true := by
  decide

theorem C5_classification_witness :
    (basenameL ("clip.MP4".toList) = "clip".toList ++ '.' :: "MP4".toList) ∧
    "clip".toList ≠ [] ∧ '.' ∉ "clip".toList ∧ '.' ∉ "MP4".toList ∧
    ((is_video_fileL ("clip.MP4".toList) = true ↔
        ('.' :: ("MP4".toList).map Char.toLower) ∈ specVideoFormats) ∧
     (is_audio_fileL ("clip.MP4".toList) = true ↔
        ('.' :: ("MP4".toList).map Char.toLower) ∈ specAudioFormats) ∧
     (app_is_video_fileL ("clip.MP4".toList) = true ↔
        (('.' :: ("MP4".toList).map Char.toLower) ∈ specVideoFormats ∧
          ('.' :: ("MP4".toList).map Char.toLower) ≠ ".webm".toList))) :=
  ⟨by decide, by decide, by decide, by decide,
   C5_classification ("clip.MP4".toList) ("clip".toList) ("MP4".toList)
     (by decide) (by decide) (by decide) (by decide)⟩

/-- C10 (confirmed). Extension classification is case-insensitive: two paths
whose extensions agree after lower-casing receive identical answers from
`utils.is_video_file`, `utils.is_audio_file` and `SpeechToText.is_video_file`,
because each lower-cases the splitext extension before the membership test. -/
theorem C10_case_insensitive (p q bp bq e1 e2 : List Char)
    (hp : basenameL p = bp ++ '.' :: e1) (hq : basenameL q = bq ++ '.' :: e2)
    (hbp : bp ≠ []) (hbq : bq ≠ []) (hdp : '.' ∉ bp) (hdq : '.' ∉ bq)
    (he1 : '.' ∉ e1) (he2 : '.' ∉ e2)
    (hlow : e1.map Char.toLower = e2.map Char.toLower) :
    is_video_fileL p = is_video_fileL q ∧
    is_audio_fileL p = is_audio_fileL q ∧
    app_is_video_fileL p = app_is_video_fileL q := by
  have hmp := map_toLower_splitext hp hbp hdp he1
  have hmq := map_toLower_splitext hq hbq hdq he2
  rw [hlow] at hmp
  refine ⟨?_, ?_, ?_⟩
  · rw [is_video_fileL, is_video_fileL, hmp, hmq]
  · rw [is_audio_fileL, is_audio_fileL, hmp, hmq]
  · rw [app_is_video_fileL, app_is_video_fileL, hmp, hmq]

theorem C10_case_insensitive_witness :
    (basenameL ("video.MP4".toList) = "video".toList ++ '.' :: "MP4".toList) ∧
    (basenameL ("video.mp4".toList) = "video".toList ++ '.' :: "mp4".toList) ∧
    "video".toList ≠ [] ∧ '.' ∉ "video".toList ∧
    '.' ∉ "MP4".toList ∧ '.' ∉ "mp4".toList ∧
    ("MP4".toList).map Char.toLower = ("mp4".toList).map Char.toLower ∧
    (is_video_fileL ("video.MP4".toList) = is_video_fileL ("video.mp4".toList) ∧
     is_audio_fileL ("video.MP4".toList) = is_audio_fileL ("video.mp4".toList) ∧
     app_is_video_fileL ("video.MP4".toList) =
       app_is_video_fileL ("video.mp4".toList)) :=
  ⟨by decide, by decide, by decide, by decide, by decide, by decide, by decide,
   C10_case_insensitive ("video.MP4".toList) ("video.mp4".toList)
     ("video".toList) ("video".toList) ("MP4".toList) ("mp4".toList)
     (by decide) (by decide) (by decide) (by decide) (by decide) (by decide)
     (by decide) (by decide) (by decide)⟩

/- ### Audio normalization (`utils.normalize_audio`, lines 97-122)

Buffers are lists of rationals (exact arithmetic in place of numpy floats).
`np.arange(0, stop, step)` has `ceil(stop / step)` entries; `np.interp`
evaluates piecewise-linear interpolation of the buffer over the sample grid
`0, 1, ..., n-1`, clamping outside the grid.  The two numpy calls that raise
on degenerate input (`np.interp` with an empty sample array, `np.max` on an
empty array) and Python's division by a zero `sample_rate` are modelled as
`Except.error` outcomes. -/

/-- Model of `np.arange(0, stop, step)`. -/
def npArange (stop step : ℚ) : List ℚ :=
  List.map (fun i : ℕ => ((i : ℚ) * step)) (List.range ((⌈stop / step⌉).toNat))

/-- Model of `np.max(np.abs(data))` for a nonempty buffer (on an empty buffer
the caller errors instead, as `np.max` does). -/
def maxAbs (l : List ℚ) : ℚ :=
  l.foldr (fun x acc => max |x| acc) 0

/-- Model of `np.interp(t, np.arange(len(data)), data)` at one query point. -/
def interpPoint (data : List ℚ) (t : ℚ) : ℚ :=
  if t ≤ 0 then data.getD 0 0
  else if ((data.length : ℚ) - 1) ≤ t then data.getD (data.length - 1) 0
  else
    (data.getD (⌊t⌋).toNat 0) +
      (t - ((⌊t⌋).toNat : ℚ)) *
        ((data.getD ((⌊t⌋).toNat + 1) 0) - (data.getD (⌊t⌋).toNat 0))

/-- Resampling branch of `normalize_audio` (lines 108-116): when the rate is
not 16 kHz, interpolate at `np.arange(0, len * ratio, ratio)`; a zero rate
raises `ZeroDivisionError` computing the ratio and an empty buffer makes
`np.interp` raise. -/
def resample_step (data : List ℚ) (sample_rate : ℕ) : Except String (List ℚ) :=
  if sample_rate ≠ 16000 then
    if sample_rate = 0 then Except.error "ZeroDivisionError: division by zero"
    else if data = [] then
      Except.error "ValueError: array of sample points is empty"
    else
      Except.ok ((npArange ((data.length : ℚ) * ((16000 : ℚ) / (sample_rate : ℚ)))
        ((16000 : ℚ) / (sample_rate : ℚ))).map (interpPoint data))
  else Except.ok data

/-- Peak-normalization branch (lines 118-120): `np.max` errors on an empty
buffer; otherwise divide by the peak when it is positive. -/
def peak_step (l : List ℚ) : Except String (List ℚ) :=
  if l = [] then Except.error "ValueError: zero-size array to reduction"
  else if 0 < maxAbs l then Except.ok (l.map (fun x => x / maxAbs l))
  else Except.ok l

/-- `utils.normalize_audio` (lines 97-122): resample to 16 kHz if needed,
then peak-normalize. -/
def normalize_audio (data : List ℚ) (sample_rate : ℕ) : Except String (List ℚ) :=
  match resample_step data sample_rate with
  | Except.error e => Except.error e
  | Except.ok a1 => peak_step a1

theorem maxAbs_nonneg (l : List ℚ) : 0 ≤ maxAbs l := by
  induction l with
  | nil => simp [maxAbs]
  | cons a t ih =>
    show 0 ≤ max |a| (maxAbs t)
    exact le_max_of_le_right ih

theorem abs_le_maxAbs {l : List ℚ} {x : ℚ} (hx : x ∈ l) : |x| ≤ maxAbs l := by
  induction l with
  | nil => cases hx
  | cons a t ih =>
    rcases List.mem_cons.mp hx with rfl | hx
    · simp [maxAbs]
    · simp only [maxAbs, List.foldr_cons]
      exact le_max_of_le_right (ih hx)

theorem maxAbs_of_all_zero {l : List ℚ} (h : ∀ x ∈ l, x = 0) : maxAbs l = 0 := by
  induction l with
  | nil => rfl
  | cons a t ih =>
    have ha := h a (List.mem_cons_self a t)
    have ht := ih (fun x hx => h x (List.mem_cons_of_mem a hx))
    show max |a| (maxAbs t) = 0
    rw [ha, ht]
    simp

theorem all_zero_of_maxAbs {l : List ℚ} (h : maxAbs l = 0) : ∀ x ∈ l, x = 0 := by
  intro x hx
  have := abs_le_maxAbs hx
  rw [h] at this
  exact abs_eq_zero.mp (le_antisymm this (abs_nonneg x))

theorem maxAbs_map_div {l : List ℚ} {m : ℚ} (hm : 0 < m) :
    maxAbs (l.map (fun x => x / m)) = maxAbs l / m := by
  induction l with
  | nil => simp [maxAbs]
  | cons a t ih =>
    simp only [List.map_cons, maxAbs, List.foldr_cons] at *
    rw [ih, abs_div, abs_of_pos hm, max_div_div_right hm.le]

theorem getD_zero_of_all_zero {l : List ℚ} (h : ∀ x ∈ l, x = 0) (i : ℕ) :
    l.getD i 0 = 0 := by
  rcases hg : l[i]? with _ | a
  · simp [List.getD, hg]
  · have hg2 : l.get? i = some a := by rw [List.get?_eq_getElem?, hg]
    have ha := h a (List.get?_mem hg2)
    simp [List.getD, hg, ha]

theorem interpPoint_zero {data : List ℚ} (h : ∀ x ∈ data, x = 0) (t : ℚ) :
    interpPoint data t = 0 := by
  unfold interpPoint
  split
  · exact getD_zero_of_all_zero h 0
  · split
    · exact getD_zero_of_all_zero h _
    · rw [getD_zero_of_all_zero h, getD_zero_of_all_zero h]
      ring

theorem peak_step_of_all_zero {l : List ℚ} (hne : l ≠ [])
    (h : ∀ x ∈ l, x = 0) : peak_step l = Except.ok l := by
  unfold peak_step
  rw [if_neg hne, maxAbs_of_all_zero h]
  simp

/-- C8 (amended). For every nonempty all-zero buffer at any nonzero sample
rate, `normalize_audio` raises no division error — the division by the peak
is guarded by `np.max(np.abs(data)) > 0` — and returns the all-zero buffer
unchanged (also through the resampling branch, whose interpolation of a
zero buffer yields the same all-zero buffer). -/
theorem C8_normalize_all_zero (data : List ℚ) (r : ℕ)
    (hne : data ≠ []) (hr : r ≠ 0) (hz : ∀ x ∈ data, x = 0) :
    normalize_audio data r = Except.ok data := by
  by_cases h16 : r = 16000
  · subst h16
    have hres : resample_step data 16000 = Except.ok data := by
      unfold resample_step
      simp
    unfold normalize_audio
    rw [hres]
    exact peak_step_of_all_zero hne hz
  · have hq : ((16000 : ℚ) / (r : ℚ)) ≠ 0 := by
      apply div_ne_zero (by norm_num)
      exact_mod_cast hr
    have harange : (npArange ((data.length : ℚ) * ((16000 : ℚ) / (r : ℚ)))
        ((16000 : ℚ) / (r : ℚ))).length = data.length := by
      unfold npArange
      rw [List.length_map, List.length_range,
        mul_div_cancel_right₀ _ hq]
      rw [Int.ceil_natCast, Int.toNat_natCast]
    set l' := (npArange ((data.length : ℚ) * ((16000 : ℚ) / (r : ℚ)))
        ((16000 : ℚ) / (r : ℚ))).map (interpPoint data) with hl'
    have hres : resample_step data r = Except.ok l' := by
      unfold resample_step
      rw [if_pos h16, if_neg hr, if_neg hne]
    have hz' : ∀ x ∈ l', x = 0 := by
      intro x hx
      rcases List.mem_map.mp hx with ⟨t, _, rfl⟩
      exact interpPoint_zero hz t
    have hlen : l'.length = data.length := by
      rw [hl', List.length_map, harange]
    have heq : l' = data := by
      have h1 : l' = List.replicate data.length 0 :=
        List.eq_replicate_iff.mpr ⟨hlen, hz'⟩
      have h2 : data = List.replicate data.length 0 :=
        List.eq_replicate_iff.mpr ⟨rfl, hz⟩
      rw [h1, ← h2]
    unfold normalize_audio
    rw [hres, heq]
    exact peak_step_of_all_zero hne hz

theorem resample_step_16000 (data : List ℚ) :
    resample_step data 16000 = Except.ok data := by
  unfold resample_step
  simp

theorem normalize_audio_of_resample {data a1 : List ℚ} {r : ℕ}
    (h : resample_step data r = Except.ok a1) :
    normalize_audio data r = peak_step a1 := by
  unfold normalize_audio
  rw [h]

theorem maxAbs_singleton (x : ℚ) : maxAbs [x] = |x| := by
  show max |x| 0 = |x|
  exact max_eq_left (abs_nonneg x)

/-- C7 (amended). A 16 kHz buffer whose peak absolute amplitude is exactly 1
is returned unchanged by `normalize_audio`, and `normalize_audio` is
idempotent on its own outputs: re-normalizing any successful output at
16 kHz returns it unchanged.  (A peak strictly between 0 and 1 is rescaled,
so "peak at most 1" buffers are not fixed points in general.) -/
theorem C7_normalize_fixed_points :
    (∀ data : List ℚ, maxAbs data = 1 →
        normalize_audio data 16000 = Except.ok data) ∧
    (∀ (data : List ℚ) (r : ℕ) (y : List ℚ),
        normalize_audio data r = Except.ok y →
        normalize_audio y 16000 = Except.ok y) := by
  have fixed : ∀ data : List ℚ, data ≠ [] → maxAbs data = 1 →
      normalize_audio data 16000 = Except.ok data := by
    intro data hne h1
    rw [normalize_audio_of_resample (resample_step_16000 data)]
    unfold peak_step
    rw [if_neg hne, h1]
    norm_num
  constructor
  · intro data h1
    have hne : data ≠ [] := by
      intro h
      rw [h] at h1
      norm_num [maxAbs] at h1
    exact fixed data hne h1
  · intro data r y h
    rcases hres : resample_step data r with e | a1
    · rw [normalize_audio, hres] at h
      cases h
    · rw [normalize_audio_of_resample hres] at h
      have ha1ne : a1 ≠ [] := by
        intro hh
        rw [hh] at h
        unfold peak_step at h
        simp at h
      unfold peak_step at h
      rw [if_neg ha1ne] at h
      by_cases hpos : 0 < maxAbs a1
      · rw [if_pos hpos] at h
        have hy : y = a1.map (fun x => x / maxAbs a1) :=
          (Except.ok.injEq _ _ ▸ h).symm
        have hyne : y ≠ [] := by
          rw [hy]
          simp [ha1ne]
        have hmy : maxAbs y = 1 := by
          rw [hy, maxAbs_map_div hpos, div_self (ne_of_gt hpos)]
        exact fixed y hyne hmy
      · rw [if_neg hpos] at h
        have hy : y = a1 := (Except.ok.injEq _ _ ▸ h).symm
        have hm0 : maxAbs y = 0 := by
          rw [hy]
          exact le_antisymm (not_lt.mp hpos) (maxAbs_nonneg a1)
        have hyne : y ≠ [] := hy ▸ ha1ne
        rw [normalize_audio_of_resample (resample_step_16000 y)]
        unfold peak_step
        rw [if_neg hyne, hm0]
        norm_num

theorem normalize_audio_half :
    normalize_audio [(1 : ℚ)/2] 16000 = Except.ok [(1 : ℚ)] := by
  have h1 : maxAbs [(1 : ℚ)/2] = 1/2 := by
    rw [maxAbs_singleton, abs_of_nonneg (by norm_num : (0 : ℚ) ≤ 1/2)]
  rw [normalize_audio_of_resample (resample_step_16000 _)]
  unfold peak_step
  rw [if_neg (by simp), h1]
  norm_num

/-- C7 counterexample: the buffer `[1/2]` is mono, 16 kHz, with peak at most
1, yet `normalize_audio` rescales it to `[1]`, so the claimed no-op on every
peak-at-most-1 buffer fails. -/
theorem C7_counterexample :
    maxAbs [(1 : ℚ)/2] ≤ 1 ∧
    normalize_audio [(1 : ℚ)/2] 16000 = Except.ok [(1 : ℚ)] ∧
    (Except.ok [(1 : ℚ)] : Except String (List ℚ)) ≠ Except.ok [(1 : ℚ)/2] := by
  refine ⟨?_, normalize_audio_half, ?_⟩
  · rw [maxAbs_singleton, abs_of_nonneg (by norm_num : (0 : ℚ) ≤ 1/2)]
    norm_num
  · simp only [ne_eq, Except.ok.injEq, List.cons.injEq, and_true]
    norm_num

theorem C7_normalize_fixed_points_witness :
    (maxAbs [(1 : ℚ)] = 1 ∧
      normalize_audio [(1 : ℚ)] 16000 = Except.ok [(1 : ℚ)]) ∧
    (normalize_audio [(1 : ℚ)/2] 16000 = Except.ok [(1 : ℚ)] ∧
      normalize_audio [(1 : ℚ)] 16000 = Except.ok [(1 : ℚ)]) :=
  ⟨⟨by rw [maxAbs_singleton]; norm_num,
    C7_normalize_fixed_points.1 [(1 : ℚ)] (by rw [maxAbs_singleton]; norm_num)⟩,
   ⟨normalize_audio_half,
    C7_normalize_fixed_points.2 [(1 : ℚ)/2] 16000 [(1 : ℚ)] normalize_audio_half⟩⟩

/-- C8 counterexample: at sample rate 0 the resampling ratio `16000 / rate`
raises `ZeroDivisionError` even for an all-zero buffer, so "any sample rate"
in the claim fails. -/
theorem C8_counterexample :
    normalize_audio [(0 : ℚ)] 0 =
      Except.error "ZeroDivisionError: division by zero" := by
  unfold normalize_audio resample_step
  norm_num

theorem C8_normalize_all_zero_witness :
    ([(0 : ℚ)] ≠ ([] : List ℚ)) ∧ (8000 : ℕ) ≠ 0 ∧
    (∀ x ∈ [(0 : ℚ)], x = 0) ∧
    normalize_audio [(0 : ℚ)] 8000 = Except.ok [(0 : ℚ)] :=
  ⟨by simp, by norm_num, by simp,
   C8_normalize_all_zero [(0 : ℚ)] 8000 (by simp) (by norm_num) (by simp)⟩

/- ### Model loading (`STTEngine._load_model`, engine.py lines 88-175)

Device and compute type are taken after the auto-selection of lines 76-85
(the ladder itself starts at line 88).  Each `WhisperModel(...)` construction
is a distinct runtime event that may independently succeed or fail, so the
outcome oracle is indexed by the attempt number in addition to the model size
and configuration attempted. -/

inductive Device
  | cpu
  | cuda
deriving DecidableEq, Repr

inductive ComputeType
  | float16
  | float32
  | int8
  | int8_float16
deriving DecidableEq, Repr

structure BackendConfig where
  device : Device
  computeType : ComputeType
deriving DecidableEq, Repr

/-- One accumulated failure record: the model size and configuration whose
`WhisperModel` construction raised (engine.py `error_messages`). -/
structure FailureRecord where
  modelSize : String
  config : BackendConfig
deriving DecidableEq, Repr

/-- Outcome of a successful load (`self.model_size`/`self.device`/
`self.compute_type` after `_load_model` returns). -/
structure LoadedModel where
  modelSize : String
  device : Device
  computeType : ComputeType
deriving DecidableEq, Repr

/-- `fallback_configs` of engine.py lines 114-128: the secondary ladder
after the preferred candidate fails. -/
def fallback_configs (d : Device) : List BackendConfig :=
  if d = Device.cuda then
    [⟨Device.cuda, ComputeType.int8_float16⟩,
     ⟨Device.cuda, ComputeType.int8⟩,
     ⟨Device.cpu, ComputeType.int8⟩]
  else
    [⟨Device.cpu, ComputeType.int8_float16⟩,
     ⟨Device.cpu, ComputeType.int8⟩]

/-- The fallback loop of lines 130-156: try each config in order with the
next attempt index, accumulating a failure record per raised construction,
stopping at the first success.  Returns the successful config (if any), the
accumulated records, and the next attempt index. -/
def try_fallbacks (ok : ℕ → String → BackendConfig → Bool) (ms : String) :
    ℕ → List FailureRecord → List BackendConfig →
    Option BackendConfig × List FailureRecord × ℕ
  | idx, errs, [] => (none, errs, idx)
  | idx, errs, c :: rest =>
    if ok idx ms c then (some c, errs, idx + 1)
    else try_fallbacks ok ms (idx + 1) (errs ++ [⟨ms, c⟩]) rest

/-- `STTEngine._load_model` (engine.py lines 88-175): primary attempt with
the resolved (device, compute_type); on failure the fallback ladder for that
device; on total failure a final `tiny` on (cpu, int8) unless the requested
size already is `tiny`; raise with the accumulated history if everything
failed.  A successful load returns the final model state together with the
failure records accumulated before the success. -/
def load_model (ok : ℕ → String → BackendConfig → Bool) (ms : String)
    (d : Device) (ct : ComputeType) :
    Except (List FailureRecord) (LoadedModel × List FailureRecord) :=
  if ok 0 ms ⟨d, ct⟩ then Except.ok (⟨ms, d, ct⟩, [])
  else
    match try_fallbacks ok ms 1 [⟨ms, ⟨d, ct⟩⟩] (fallback_configs d) with
    | (some c, errs, _) => Except.ok (⟨ms, c.device, c.computeType⟩, errs)
    | (none, errs, idx) =>
      if ms ≠ "tiny" then
        if ok idx "tiny" ⟨Device.cpu, ComputeType.int8⟩ then
          Except.ok (⟨"tiny", Device.cpu, ComputeType.int8⟩, errs)
        else Except.error (errs ++ [⟨"tiny", ⟨Device.cpu, ComputeType.int8⟩⟩])
      else Except.error errs

/-- C3 (confirmed). The degradation ladder is linear and stops at the first
success: for either preferred device the second tier is (same device,
int8_float16) and the third tier is (same device, int8) — for a GPU
preference the ladder continues (gpu, int8_fp16), (gpu, int8), (cpu, int8),
for a CPU preference (cpu, int8_fp16), (cpu, int8).  When the preferred
attempt and tier 2 fail and tier 3 succeeds, the loaded model keeps the
requested model size with tier 3's device and precision, and the accumulated
history holds exactly the two failure records, in order. -/
theorem C3_load_ladder (ok : ℕ → String → BackendConfig → Bool)
    (ms : String) (d : Device) (ct : ComputeType)
    (h0 : ok 0 ms ⟨d, ct⟩ = false)
    (h1 : ok 1 ms ⟨d, ComputeType.int8_float16⟩ = false)
    (h2 : ok 2 ms ⟨d, ComputeType.int8⟩ = true) :
    load_model ok ms d ct =
      Except.ok (⟨ms, d, ComputeType.int8⟩,
        [⟨ms, ⟨d, ct⟩⟩, ⟨ms, ⟨d, ComputeType.int8_float16⟩⟩]) := by
  cases d <;>
    simp [load_model, fallback_configs, try_fallbacks, h0, h1, h2]

theorem C3_load_ladder_witness :
    ((fun i _ _ => decide (i = 2)) : ℕ → String → BackendConfig → Bool) 0
        "medium" ⟨Device.cuda, ComputeType.float16⟩ = false ∧
    ((fun i _ _ => decide (i = 2)) : ℕ → String → BackendConfig → Bool) 1
        "medium" ⟨Device.cuda, ComputeType.int8_float16⟩ = false ∧
    ((fun i _ _ => decide (i = 2)) : ℕ → String → BackendConfig → Bool) 2
        "medium" ⟨Device.cuda, ComputeType.int8⟩ = true ∧
    load_model (fun i _ _ => decide (i = 2)) "medium"
        Device.cuda ComputeType.float16 =
      Except.ok (⟨"medium", Device.cuda, ComputeType.int8⟩,
        [⟨"medium", ⟨Device.cuda, ComputeType.float16⟩⟩,
         ⟨"medium", ⟨Device.cuda, ComputeType.int8_float16⟩⟩]) :=
  ⟨by decide, by decide, by decide,
   C3_load_ladder (fun i _ _ => decide (i = 2)) "medium"
     Device.cuda ComputeType.float16 (by decide) (by decide) (by decide)⟩

/- ### Transcription result aggregation (engine.py lines 246-261,
app.py lines 219-230)

The inference capability returns a *lazy, single-pass* sequence of segments
(faster_whisper yields a generator).  A generator is modelled by its list of
remaining items: iterating it returns those items and leaves it exhausted. -/

structure Segment where
  text : List Char
  start : ℚ
  finish : ℚ
deriving DecidableEq, Repr

structure InfoData where
  language : List Char
  language_probability : ℚ
  duration : ℚ
deriving DecidableEq, Repr

structure GenState where
  remaining : List Segment
deriving DecidableEq, Repr

/-- Iterating a Python generator: yields every remaining item and leaves the
generator exhausted. -/
def genConsume (g : GenState) : List Segment × GenState :=
  (g.remaining, ⟨[]⟩)

structure TranscribeDetails where
  language : List Char
  language_probability : ℚ
  duration : ℚ
  segments_count : ℕ
deriving DecidableEq, Repr

/-- `STTEngine.transcribe` result aggregation (engine.py lines 246-261):
line 249 joins the segment texts, consuming the generator; line 257 counts
by iterating the *same* generator again (`sum(1 for _ in segments)`). -/
def engine_transcribe_result (segs : List Segment) (info : InfoData) :
    List Char × TranscribeDetails :=
  let r1 := genConsume ⟨segs⟩
  let text := List.intercalate ([' ']) (r1.1.map Segment.text)
  let r2 := genConsume r1.2
  (text, ⟨info.language, info.language_probability, info.duration, r2.1.length⟩)

/-- `SpeechToText.transcribe` result aggregation (app.py lines 219-230):
line 222 joins the segment texts, consuming the generator; line 229 counts
with `len(list(segments))` over the same exhausted generator. -/
def app_transcribe_result (segs : List Segment) (info : InfoData) :
    List Char × TranscribeDetails :=
  let r1 := genConsume ⟨segs⟩
  let transcription := List.intercalate ([' ']) (r1.1.map Segment.text)
  let r2 := genConsume r1.2
  (transcription,
    ⟨info.language, info.language_probability, info.duration, r2.1.length⟩)

/-- The specification's inference stub: segments ("Hello",0,1), ("world",1,2). -/
def stubSegments : List Segment :=
  [⟨"Hello".toList, 0, 1⟩, ⟨"world".toList, 1, 2⟩]

/-- The specification's stub info: language "en", probability 0.95, duration 2. -/
def stubInfo : InfoData :=
  ⟨"en".toList, 95/100, 2⟩

/-- C1 (code bug). With the spec's two-segment stub the joined text is
"Hello world", but both implementations compute the segment count by
iterating the already-consumed single-pass generator a second time, so the
reported `segments_count` is 0, not the 2 the claim (and the spec's explicit
materialize-once requirement) demands. -/
theorem C1_segments_count_bug :
    engine_transcribe_result stubSegments stubInfo =
      ("Hello world".toList, ⟨"en".toList, 95/100, 2, 0⟩) ∧
    app_transcribe_result stubSegments stubInfo =
      ("Hello world".toList, ⟨"en".toList, 95/100, 2, 0⟩) ∧
    (0 : ℕ) ≠ 2 := by
  refine ⟨rfl, rfl, by decide⟩

/- ### Inference invocation profile (engine.py lines 215-225,
app.py line 219)

The parameter record mirrors the keywords of the external capability
`WhisperModel.transcribe` that the sources touch; `ParamOverrides` models the
caller's `**kwargs` merged by `transcribe_params.update(kwargs)`. -/

structure TranscribeParams where
  beam_size : ℕ
  language : Option (List Char)
  vad_filter : Bool
  min_silence_duration_ms : ℕ
  condition_on_previous_text : Bool
deriving DecidableEq, Repr

structure ParamOverrides where
  beam_size : Option ℕ := none
  language : Option (Option (List Char)) := none
  vad_filter : Option Bool := none
  min_silence_duration_ms : Option ℕ := none
  condition_on_previous_text : Option Bool := none
deriving DecidableEq, Repr

/-- `STTEngine.transcribe` parameter assembly (engine.py lines 215-225):
defaults `beam_size=3, language=language or self.language, vad_filter=True,
vad_parameters=dict(min_silence_duration_ms=500),
condition_on_previous_text=False`, then `update(kwargs)`.  Python's `or`
falls back on `self.language` when `language` is `None` or empty. -/
def engine_transcribe_params (selfLanguage : Option (List Char))
    (language : Option (List Char)) (ov : ParamOverrides) : TranscribeParams :=
  { beam_size := ov.beam_size.getD 3,
    language := ov.language.getD
      (match language with
       | none => selfLanguage
       | some l => if l = [] then selfLanguage else some l),
    vad_filter := ov.vad_filter.getD true,
    min_silence_duration_ms := ov.min_silence_duration_ms.getD 500,
    condition_on_previous_text := ov.condition_on_previous_text.getD false }

/-- Modelled from the documented defaults of the external `faster_whisper`
capability `WhisperModel.transcribe`: `beam_size=5, vad_filter=False,
condition_on_previous_text=True`, VAD minimum silence 2000 ms. -/
def capability_default_params (language : Option (List Char)) :
    TranscribeParams :=
  { beam_size := 5, language := language, vad_filter := false,
    min_silence_duration_ms := 2000, condition_on_previous_text := true }

/-- `SpeechToText.transcribe` invocation (app.py line 219):
`model.transcribe(audio_file, beam_size=5, language=language)` — only the
beam size and language are set, every other parameter keeps the capability
default. -/
def app_transcribe_call_params (language : Option (List Char)) :
    TranscribeParams :=
  { capability_default_params language with beam_size := 5, language := language }

/-- The inference profile that the claim asserts for calls with no caller
overrides: beam width constant within 3-5, VAD filtering on with 500 ms
minimum silence, conditioning on previous text off. -/
def claimedDefaultProfile (p : TranscribeParams) : Prop :=
  (3 ≤ p.beam_size ∧ p.beam_size ≤ 5) ∧ p.vad_filter = true ∧
  p.min_silence_duration_ms = 500 ∧ p.condition_on_previous_text = false

/-- C4 (amended). Every `STTEngine.transcribe` call with no caller overrides
invokes the capability with the claimed profile (beam 3, VAD on with 500 ms
minimum silence, conditioning off), for any engine default language and any
caller language hint. -/
theorem C4_engine_default_profile (selfLanguage language : Option (List Char)) :
    claimedDefaultProfile (engine_transcribe_params selfLanguage language {}) := by
  have hb : (engine_transcribe_params selfLanguage language {}).beam_size = 3 := rfl
  refine ⟨⟨by rw [hb], by rw [hb]; norm_num⟩, rfl, rfl, rfl⟩

/-- C4 counterexample: the `SpeechToText.transcribe` path in `app.py` passes
only `beam_size=5` and the language, so VAD filtering and conditioning stay
at the capability defaults (off and on respectively) and the claimed profile
fails on that call. -/
theorem C4_counterexample :
    ¬ claimedDefaultProfile (app_transcribe_call_params none) := by
  intro h
  exact absurd h.2.1 (by decide)

/- ### pathlib-based path derivations (engine.py lines 272-294) and the
ntpath-based one of app.py lines 169-197 -/

/-- `pathlib.PurePath.suffix`: the extension of the final component, i.e.
the part from the last dot when that dot is neither the first nor the last
character of the component. -/
def pathlibSuffix (p : List Char) : List Char :=
  if (basenameL p).reverse.takeWhile (fun c => c != '.') = (basenameL p).reverse
    then []
  else if ((basenameL p).reverse.takeWhile (fun c => c != '.')).length = 0
    then []
  else if ((basenameL p).reverse.takeWhile (fun c => c != '.')).length
      = (basenameL p).length - 1 then []
  else '.' :: ((basenameL p).reverse.takeWhile (fun c => c != '.')).reverse

/-- `pathlib.PurePath.stem`: the final component without its suffix. -/
def pathlibStem (p : List Char) : List Char :=
  (basenameL p).take ((basenameL p).length - (pathlibSuffix p).length)

/-- `SUPPORTED_VIDEO_FORMATS` of engine.py line 29. -/
def ENGINE_VIDEO_FORMATS : List (List Char) :=
  [".mp4".toList, ".avi".toList, ".mov".toList, ".mkv".toList,
   ".flv".toList, ".wmv".toList, ".webm".toList]

/-- `STTEngine._is_video_file` (engine.py lines 272-275):
`Path(file_path).suffix.lower() in SUPPORTED_VIDEO_FORMATS`. -/
def engine_is_video_fileL (p : List Char) : Bool :=
  ENGINE_VIDEO_FORMATS.contains ((pathlibSuffix p).map Char.toLower)

/-- Temporary extraction path of `STTEngine._extract_audio_from_video`
(engine.py lines 282-284):
`os.path.join(tempfile.gettempdir(), Path(video_path).stem + "_audio.wav")`. -/
def engine_extract_pathL (tmpDir p : List Char) : List Char :=
  tmpDir ++ '/' :: (pathlibStem p ++ "_audio.wav".toList)

/-- `ntpath.basename`: final component after the last slash or backslash
(app.py imports `ntpath`, line 186). -/
def ntBasenameL (p : List Char) : List Char :=
  (p.reverse.takeWhile (fun c => c != '/' && c != '\\')).reverse

/-- Stem of a basename under `os.path.splitext`. -/
def splitextStemOfBase (b : List Char) : List Char :=
  b.take (b.length - (extOfBase b).length)

/-- Temporary extraction path of `SpeechToText.extract_audio_from_video`
(app.py lines 185-187):
`os.path.join(tempfile.gettempdir(), splitext(ntpath.basename(f))[0] + "_audio.wav")`. -/
def app_extract_pathL (tmpDir p : List Char) : List Char :=
  tmpDir ++ '/' :: (splitextStemOfBase (ntBasenameL p) ++ "_audio.wav".toList)

/-- C6 counterexample: the distinct video inputs `/a/clip.mp4` and
`/b/clip.mp4` map to the *same* extraction path `/tmp/clip_audio.wav`, in
both the engine and the app derivation, so concurrent transcribe calls on
these two inputs write the same temporary. -/
theorem C6_counterexample :
    engine_extract_pathL ("/tmp".toList) ("/a/clip.mp4".toList) =
      engine_extract_pathL ("/tmp".toList) ("/b/clip.mp4".toList) ∧
    app_extract_pathL ("/tmp".toList) ("/a/clip.mp4".toList) =
      app_extract_pathL ("/tmp".toList) ("/b/clip.mp4".toList) ∧
    ("/a/clip.mp4".toList ≠ "/b/clip.mp4".toList) ∧
    engine_extract_pathL ("/tmp".toList) ("/a/clip.mp4".toList) =
      "/tmp/clip_audio.wav".toList := by
  refine ⟨rfl, rfl, by decide, by decide⟩

/-- C6 (amended). The extraction path is the temp directory joined with the
source filename stem plus the fixed suffix `_audio.wav`, so two video inputs
collide exactly when their stems coincide: whenever the stems differ the
derived temporary paths differ, for both the engine derivation
(`pathlib` stem) and the app derivation (`splitext` stem of the basename). -/
theorem C6_distinct_stems (tmp p q : List Char) :
    (pathlibStem p ≠ pathlibStem q →
      engine_extract_pathL tmp p ≠ engine_extract_pathL tmp q) ∧
    (splitextStemOfBase (ntBasenameL p) ≠ splitextStemOfBase (ntBasenameL q) →
      app_extract_pathL tmp p ≠ app_extract_pathL tmp q) := by
  constructor
  · intro hne heq
    unfold engine_extract_pathL at heq
    have h1 := List.append_cancel_left heq
    have h2 : pathlibStem p ++ "_audio.wav".toList
        = pathlibStem q ++ "_audio.wav".toList := by
      injection h1
    exact hne (List.append_cancel_right h2)
  · intro hne heq
    unfold app_extract_pathL at heq
    have h1 := List.append_cancel_left heq
    have h2 : splitextStemOfBase (ntBasenameL p) ++ "_audio.wav".toList
        = splitextStemOfBase (ntBasenameL q) ++ "_audio.wav".toList := by
      injection h1
    exact hne (List.append_cancel_right h2)

theorem C6_distinct_stems_witness :
    (pathlibStem ("/a/x.mp4".toList) ≠ pathlibStem ("/b/y.mp4".toList)) ∧
    engine_extract_pathL ("/tmp".toList) ("/a/x.mp4".toList) ≠
      engine_extract_pathL ("/tmp".toList) ("/b/y.mp4".toList) :=
  ⟨by decide,
   (C6_distinct_stems ("/tmp".toList) ("/a/x.mp4".toList) ("/b/y.mp4".toList)).1
     (by decide)⟩

/- ### Temporary-file lifecycle of `transcribe`

The filesystem is the list of existing temporary-file paths.  The outcome of
the external inference call and of the extraction step are explicit boolean
parameters.  `PyResult` distinguishes a Python return from a propagated
exception. -/

inductive PyResult (α : Type)
  | ok : α → PyResult α
  | raised : String → PyResult α
deriving DecidableEq, Repr

inductive AudioInput
  | arr : AudioInput
  | strPath : List Char → AudioInput

/-- The `finally` block of engine.py lines 267-270: delete `temp_file` if it
was set and still exists. -/
def finallyClean : Option (List Char) → List (List Char) → List (List Char)
  | none, fs => fs
  | some t, fs => if t ∈ fs then fs.filter (fun q => q != t) else fs

/-- Filesystem effect of `STTEngine.transcribe` (engine.py lines 228-270):
an ndarray input is written to the fresh temporary `tmpName` (lines 231-235);
a video path has audio extracted to the derived path (lines 240-242, may
raise); the inference call may raise (line 246); the `finally` block deletes
only `temp_file` — the ndarray temporary — never the extracted audio file. -/
def engine_transcribe_fs (tmpName tmpDir : List Char) (inp : AudioInput)
    (extractRaises inferRaises : Bool) (fs : List (List Char)) :
    PyResult Unit × List (List Char) :=
  let temp_file : Option (List Char) :=
    match inp with
    | AudioInput.arr => some tmpName
    | AudioInput.strPath _ => none
  let audio_path : List Char :=
    match inp with
    | AudioInput.arr => tmpName
    | AudioInput.strPath p => p
  let fs1 : List (List Char) :=
    match inp with
    | AudioInput.arr => tmpName :: fs
    | AudioInput.strPath _ => fs
  let step2 : PyResult (List Char) × List (List Char) :=
    if engine_is_video_fileL audio_path then
      if extractRaises then
        (PyResult.raised "RuntimeError: cannot extract audio", fs1)
      else
        (PyResult.ok (engine_extract_pathL tmpDir audio_path),
          engine_extract_pathL tmpDir audio_path :: fs1)
    else (PyResult.ok audio_path, fs1)
  match step2 with
  | (PyResult.raised e, fs2) => (PyResult.raised e, finallyClean temp_file fs2)
  | (PyResult.ok _, fs2) =>
    if inferRaises then
      (PyResult.raised "transcription failed", finallyClean temp_file fs2)
    else (PyResult.ok (), finallyClean temp_file fs2)

/-- Filesystem effect of `SpeechToText.transcribe` (app.py lines 199-242):
extraction may raise (propagated, line 197); the inference call may raise
with no cleanup in place; only the success path removes the extracted file,
guarded by the substring checks of line 235. -/
def app_transcribe_fs (tmpDir p : List Char)
    (extractRaises inferRaises : Bool) (fs : List (List Char)) :
    PyResult Unit × List (List Char) :=
  if app_is_video_fileL p then
    if extractRaises then (PyResult.raised "extraction failed", fs)
    else
      let ap := app_extract_pathL tmpDir p
      let fs1 := ap :: fs
      if inferRaises then (PyResult.raised "transcription failed", fs1)
      else
        (PyResult.ok (),
          if ("_audio.wav".toList <:+: ap) ∧ (tmpDir <:+: ap) then
            fs1.filter (fun q => q != ap)
          else fs1)
  else
    if inferRaises then (PyResult.raised "transcription failed", fs)
    else (PyResult.ok (), fs)

/-- C2 (code bug). Transcribing the video `/videos/clip.mp4` in an empty
temporary directory: `STTEngine.transcribe` returns successfully yet the
extracted file `/tmp/clip_audio.wav` still exists — its `finally` block
deletes only the ndarray temporary; and `SpeechToText.transcribe` leaves the
same file behind when the inference call raises, since its cleanup runs only
on the success path.  Both contradict the claimed deletion on every exit
path. -/
theorem C2_extracted_file_leak :
    engine_transcribe_fs ("/tmp/stt.wav".toList) ("/tmp".toList)
        (AudioInput.strPath ("/videos/clip.mp4".toList)) false false [] =
      (PyResult.ok (), ["/tmp/clip_audio.wav".toList]) ∧
    ("/tmp/clip_audio.wav".toList) ∈
      (engine_transcribe_fs ("/tmp/stt.wav".toList) ("/tmp".toList)
        (AudioInput.strPath ("/videos/clip.mp4".toList)) false false []).2 ∧
    app_transcribe_fs ("/tmp".toList) ("/videos/clip.mp4".toList) false true [] =
      (PyResult.raised "transcription failed", ["/tmp/clip_audio.wav".toList]) := by
  refine ⟨by decide, by decide, by decide⟩

/- ### `utils.convert_video_to_audio` (utils.py lines 40-94)

Environmental failure points are explicit booleans: ffmpeg availability
(line 51), the `NamedTemporaryFile` creation raising (line 57), the ffmpeg
run raising `subprocess.SubprocessError` (line 85) or another exception
(line 90), and the state of the output file after a successful run
(lines 78-83). -/

structure ConvertEnv where
  ffmpegAvailable : Bool
  tmpCreateRaises : Bool
  subprocessRaises : Bool
  runRaisesOther : Bool
  outputExists : Bool
  outputSize : ℕ
deriving DecidableEq, Repr

/-- `utils.convert_video_to_audio`: the first component is the Python
outcome (a returned `(path, success)` pair, or a propagated exception), the
second whether the temporary output file still exists when the call ends.
When `NamedTemporaryFile` itself raises, `audio_path` is never bound, so the
`except Exception` handler's `os.path.exists(audio_path)` (line 92) raises
`UnboundLocalError`, which propagates to the caller. -/
def convert_video_to_audio (env : ConvertEnv) (tmpPath : List Char) :
    PyResult (List Char × Bool) × Bool :=
  if !env.ffmpegAvailable then (PyResult.ok ([], false), false)
  else if env.tmpCreateRaises then
    (PyResult.raised "UnboundLocalError: audio_path", false)
  else if env.subprocessRaises then
    (PyResult.ok ([], false), false)
  else if env.runRaisesOther then
    (PyResult.ok ([], false), false)
  else if env.outputExists && decide (0 < env.outputSize) then
    (PyResult.ok (tmpPath, true), true)
  else (PyResult.ok ([], false), env.outputExists)

/-- C9 counterexample: when ffmpeg is available but creating the temporary
output file raises, `convert_video_to_audio` does not return a pair — the
handler's reference to the unbound `audio_path` raises `UnboundLocalError`,
which propagates to the caller. -/
theorem C9_counterexample :
    (convert_video_to_audio ⟨true, true, false, false, false, 0⟩
        ("/tmp/out.wav".toList)).1 =
      PyResult.raised "UnboundLocalError: audio_path" := by
  decide

/-- C9 (amended). Provided the temporary-file creation itself succeeds,
`convert_video_to_audio` never propagates an exception: it returns a pair,
that pair is `("", False)` whenever ffmpeg is unavailable, the conversion
subprocess raises (a `SubprocessError` or any other exception), or the
output file is missing or zero bytes; and on both exception-handler paths
the partially-created temporary output file is deleted before returning. -/
theorem C9_convert_no_raise (env : ConvertEnv) (tmpPath : List Char)
    (h : env.tmpCreateRaises = false) :
    (∃ r, (convert_video_to_audio env tmpPath).1 = PyResult.ok r) ∧
    ((env.ffmpegAvailable = false ∨ env.subprocessRaises = true ∨
        env.runRaisesOther = true ∨ env.outputExists = false ∨
        env.outputSize = 0) →
      (convert_video_to_audio env tmpPath).1 = PyResult.ok ([], false)) ∧
    ((env.ffmpegAvailable = true ∧
        (env.subprocessRaises = true ∨ env.runRaisesOther = true)) →
      (convert_video_to_audio env tmpPath).2 = false) := by
  rcases env with ⟨fa, tc, sr, ro, oe, os⟩
  simp only at h
  subst h
  rcases Nat.eq_zero_or_pos os with h0 | h0
  · subst h0
    cases fa <;> cases sr <;> cases ro <;> cases oe <;>
      simp [convert_video_to_audio]
  · have hos : os ≠ 0 := Nat.pos_iff_ne_zero.mp h0
    cases fa <;> cases sr <;> cases ro <;> cases oe <;>
      simp [convert_video_to_audio, h0, hos]

theorem C9_convert_no_raise_witness :
    ((⟨true, false, true, false, true, 4096⟩ : ConvertEnv).tmpCreateRaises
        = false) ∧
    ((∃ r, (convert_video_to_audio ⟨true, false, true, false, true, 4096⟩
        ("/tmp/out.wav".toList)).1 = PyResult.ok r) ∧
     (((⟨true, false, true, false, true, 4096⟩ : ConvertEnv).ffmpegAvailable
          = false ∨
        (⟨true, false, true, false, true, 4096⟩ : ConvertEnv).subprocessRaises
          = true ∨
        (⟨true, false, true, false, true, 4096⟩ : ConvertEnv).runRaisesOther
          = true ∨
        (⟨true, false, true, false, true, 4096⟩ : ConvertEnv).outputExists
          = false ∨
        (⟨true, false, true, false, true, 4096⟩ : ConvertEnv).outputSize = 0) →
       (convert_video_to_audio ⟨true, false, true, false, true, 4096⟩
          ("/tmp/out.wav".toList)).1 = PyResult.ok ([], false)) ∧
     (((⟨true, false, true, false, true, 4096⟩ : ConvertEnv).ffmpegAvailable
          = true ∧
        ((⟨true, false, true, false, true, 4096⟩ : ConvertEnv).subprocessRaises
           = true ∨
         (⟨true, false, true, false, true, 4096⟩ : ConvertEnv).runRaisesOther
           = true)) →
       (convert_video_to_audio ⟨true, false, true, false, true, 4096⟩
          ("/tmp/out.wav".toList)).2 = false)) :=
  ⟨rfl, C9_convert_no_raise ⟨true, false, true, false, true, 4096⟩
    ("/tmp/out.wav".toList) rfl⟩

theorem C4_engine_default_profile_witness :
    claimedDefaultProfile (engine_transcribe_params none none {}) :=
  C4_engine_default_profile none none
